import Mathlib

/-!
Verification development for the broker-statement XML normalization pipeline
(src/services/full_statement_xml.py, src/parsers/xml_trades.py,
src/parsers/xml_fin_ops.py, src/parsers/xml_transfers.py, src/utils.py,
src/constants.py).

The Python code is shallowly embedded: XML documents become an inductive tree
type, Python floats and Decimals become exact rationals (`Rat`; the amounts
appearing in the properties below are exactly representable, so no rounding
behaviour is lost), Python `datetime` becomes a six-field record compared
field-lexicographically, and every catch-all `try/except` becomes an explicit
`Except`/`Option` value.  Python string `lower`/`upper` are modelled on the
ASCII and Cyrillic alphabets, the only alphabets occurring in the code's
literals; `float`/`Decimal` literal parsing is modelled on plain decimal
numerals (optional sign, digits, optional fractional part), the only numeral
forms relevant here.
-/

namespace FinProgress

/-- Decidable equality for `Except` results (used to evaluate row outcomes
on concrete inputs). -/
instance {ε α : Type} [DecidableEq ε] [DecidableEq α] : DecidableEq (Except ε α) := fun
  | .ok a, .ok b =>
    if h : a = b then .isTrue (by rw [h]) else .isFalse (by intro he; cases he; exact h rfl)
  | .ok _, .error _ => .isFalse (by intro h; cases h)
  | .error _, .ok _ => .isFalse (by intro h; cases h)
  | .error e, .error f =>
    if h : e = f then .isTrue (by rw [h]) else .isFalse (by intro he; cases he; exact h rfl)

/-! ## Character and string primitives (Python `str` semantics) -/

/-- Python `str.lower` restricted to ASCII and Cyrillic (А-Я → а-я, Ё → ё). -/
def pyLowerChar (c : Char) : Char :=
  if 'A' ≤ c ∧ c ≤ 'Z' then Char.ofNat (c.toNat + 32)
  else if 0x410 ≤ c.toNat ∧ c.toNat ≤ 0x42F then Char.ofNat (c.toNat + 0x20)
  else if c.toNat = 0x401 then Char.ofNat 0x451
  else c

/-- Python `str.upper` restricted to ASCII and Cyrillic (а-я → А-Я, ё → Ё). -/
def pyUpperChar (c : Char) : Char :=
  if 'a' ≤ c ∧ c ≤ 'z' then Char.ofNat (c.toNat - 32)
  else if 0x430 ≤ c.toNat ∧ c.toNat ≤ 0x44F then Char.ofNat (c.toNat - 0x20)
  else if c.toNat = 0x451 then Char.ofNat 0x401
  else c

def pyLower (s : String) : String := String.mk (s.data.map pyLowerChar)

def pyUpper (s : String) : String := String.mk (s.data.map pyUpperChar)

/-- Python whitespace for `str.strip`, `str.split()` and the regex class `\s`:
ASCII whitespace plus the no-break space that appears in the code's
`replace(" ", ...)` calls. -/
def pyIsSpace (c : Char) : Bool :=
  c = ' ' ∨ c = '\t' ∨ c = '\n' ∨ c = '\r' ∨ c = '\x0b' ∨ c = '\x0c' ∨ c.toNat = 0xA0

/-- Python `str.strip()`. -/
def pyStrip (s : String) : String :=
  String.mk (((s.data.dropWhile pyIsSpace).reverse.dropWhile pyIsSpace).reverse)

/-- Check that `needle` is an initial segment of `hay`. -/
def charLeads : List Char → List Char → Bool
  | [], _ => true
  | _ :: _, [] => false
  | a :: as, b :: bs => a = b && charLeads as bs

/-- Python `needle in hay` on strings (substring containment). -/
def charContainsSub (hay needle : List Char) : Bool :=
  match hay with
  | [] => needle.isEmpty
  | _ :: t => charLeads needle hay || charContainsSub t needle

def strContains (hay needle : String) : Bool :=
  charContainsSub hay.data needle.data

/-- Python `str.split()` with no argument: split on whitespace runs,
discarding empty pieces. -/
def pySplitWsAux : List Char → List Char → List String
  | [], acc => if acc.isEmpty then [] else [String.mk acc.reverse]
  | c :: rest, acc =>
    if pyIsSpace c then
      if acc.isEmpty then pySplitWsAux rest []
      else String.mk acc.reverse :: pySplitWsAux rest []
    else pySplitWsAux rest (c :: acc)

def pySplitWs (s : String) : List String := pySplitWsAux s.data []

/-- Python truthiness chain `a or b` for optional strings: an absent value and
the empty string are both falsy. -/
def pyOrStr (a : Option String) (b : String) : String :=
  match a with
  | some s => if s = "" then b else s
  | none => b

/-- First truthy value of a Python `x or y or z` chain over optional strings. -/
def firstTruthy (l : List (Option String)) : Option String :=
  l.findSome? (fun o => o.bind (fun s => if s = "" then none else some s))

/-- Python `str.replace` (all non-overlapping occurrences, left to right; the
patterns used in this code are non-empty).  The fuel argument is the input
length: every step consumes at least one input character. -/
def pyReplaceFuel (pat rep : List Char) : Nat → List Char → List Char
  | 0, s => s
  | _, [] => []
  | Nat.succ k, c :: t =>
    if pat ≠ [] ∧ charLeads pat (c :: t) then
      rep ++ pyReplaceFuel pat rep k (t.drop (pat.length - 1))
    else c :: pyReplaceFuel pat rep k t

def pyReplace (s pat rep : String) : String :=
  String.mk (pyReplaceFuel pat.data rep.data s.data.length s.data)

/-! ## Numeric parsing (Python `float`/`Decimal` on plain decimal numerals) -/

def digitVal (c : Char) : Nat := c.toNat - 48

def digitsToNat (l : List Char) : Nat :=
  l.foldl (fun acc c => acc * 10 + digitVal c) 0

/-- Parse an unsigned decimal numeral `digits[.digits]` (at least one digit
overall, nothing left over), as accepted by both `float` and `Decimal`. -/
def parseUnsignedNumeral : List Char → Option Rat
  | cs =>
    let intPart := cs.takeWhile Char.isDigit
    let rest := cs.dropWhile Char.isDigit
    match rest with
    | [] => if intPart.isEmpty then none else some ((digitsToNat intPart : Int) : Rat)
    | '.' :: frac =>
      if frac.all Char.isDigit ∧ ¬ (intPart.isEmpty ∧ frac.isEmpty) then
        some (((digitsToNat intPart : Int) : Rat) +
          (digitsToNat frac : Rat) / ((10 : Rat) ^ frac.length))
      else none
    | _ => none

/-- Python numeric-literal parsing (`float(s)` / `Decimal(s)`): strip
whitespace, optional sign, decimal numeral.  (Exponent and special forms do
not occur in the statements under consideration.) -/
def pyNum? (s : String) : Option Rat :=
  match (pyStrip s).data with
  | '+' :: rest => parseUnsignedNumeral rest
  | '-' :: rest => (parseUnsignedNumeral rest).map Neg.neg
  | cs => parseUnsignedNumeral cs

/-- Python `round` (banker's rounding, ties to even) composed with `int`,
computed on the rational's numerator and denominator: with `f = ⌊q⌋` and
fractional numerator `r = q.num - f * q.den`, the fraction `r / q.den` is
compared against one half by cross-multiplication. -/
def pyRoundHalfEven (q : Rat) : Int :=
  let f := Int.fdiv q.num (q.den : Int)
  let r := q.num - f * (q.den : Int)
  if 2 * r < (q.den : Int) then f
  else if (q.den : Int) < 2 * r then f + 1
  else if f % 2 = 0 then f else f + 1

/-- Mirrors `to_float_safe` in src/parsers/xml_trades.py (the copy in
src/utils.py is character-identical). -/
def to_float_safe (v : Option String) : Rat :=
  match v with
  | none => 0
  | some v0 =>
    let s := pyStrip v0
    if s = "" ∨ s = "-" ∨ s = "--" then 0
    else
      let s1 := pyReplace (pyReplace (pyReplace s "\u00A0" " ") " " "") "," "."
      match pyNum? s1 with
      | some q => q
      | none =>
        match pyNum? (pyReplace v0 "," ".") with
        | some q => q
        | none => 0

/-- Mirrors `to_int_safe` in src/parsers/xml_trades.py. -/
def to_int_safe (v : Option String) : Int :=
  pyRoundHalfEven (to_float_safe v)

end FinProgress

namespace FinProgress

/-! ## Python `datetime` model -/

/-- Python `datetime` with second precision (microseconds are always zero in
this code), compared field-lexicographically exactly as Python compares
`datetime` values. -/
structure DT where
  year : Nat
  month : Nat
  day : Nat
  hour : Nat
  minute : Nat
  second : Nat
deriving DecidableEq, Repr

/-- `datetime.min` (0001-01-01 00:00:00). -/
def DT.min : DT := ⟨1, 1, 1, 0, 0, 0⟩

def DT.fields (d : DT) : List Nat :=
  [d.year, d.month, d.day, d.hour, d.minute, d.second]

def isLeapYear (y : Nat) : Bool := y % 4 = 0 ∧ (y % 100 ≠ 0 ∨ y % 400 = 0)

def daysInMonth (y m : Nat) : Nat :=
  if m = 2 then (if isLeapYear y then 29 else 28)
  else if m = 4 ∨ m = 6 ∨ m = 9 ∨ m = 11 then 30
  else 31

/-- The `datetime` constructor's validity checks (raise `ValueError` on
failure, hence `Option`): this is what makes `strptime` reject 30 February
or hour 25 even when the digits match the format's regex. -/
def mkDT? (y mo d h mi s : Nat) : Option DT :=
  if 1 ≤ y ∧ y ≤ 9999 ∧ 1 ≤ mo ∧ mo ≤ 12 ∧ 1 ≤ d ∧ d ≤ daysInMonth y mo ∧
     h ≤ 23 ∧ mi ≤ 59 ∧ s ≤ 59 then
    some ⟨y, mo, d, h, mi, s⟩
  else none

def pad2 (n : Nat) : String := if n < 10 then "0" ++ toString n else toString n

def pad4 (n : Nat) : String :=
  if n < 10 then "000" ++ toString n
  else if n < 100 then "00" ++ toString n
  else if n < 1000 then "0" ++ toString n
  else toString n

/-- Python `datetime.isoformat()` (microseconds are zero, so they are
omitted). -/
def DT.isoformat (d : DT) : String :=
  pad4 d.year ++ "-" ++ pad2 d.month ++ "-" ++ pad2 d.day ++ "T" ++
    pad2 d.hour ++ ":" ++ pad2 d.minute ++ ":" ++ pad2 d.second

/-! ### `strptime`-style numeric field parsing

`_strptime` compiles each numeric directive to a regex alternation over one-
or two-digit numbers (for `%Y`: exactly four digits) followed by the next
literal of the format.  Because no two numeric directives are adjacent in any
format used by this code, greedy digit consumption capped at the directive's
width is equivalent to the regex with backtracking: a shorter match would
leave a digit in front of a non-digit literal and fail anyway. -/

def takeDigits (cap : Nat) (cs : List Char) : List Char × List Char :=
  let run := cs.takeWhile Char.isDigit
  if run.length ≤ cap then (run, cs.drop run.length)
  else (run.take cap, cs.drop cap)

/-- Parse a 1-2 digit field. -/
def pNum2 (cs : List Char) : Option (Nat × List Char) :=
  match takeDigits 2 cs with
  | ([], _) => none
  | (ds, rest) => some (digitsToNat ds, rest)

/-- Parse the `%Y` field: CPython's `_strptime` compiles `%Y` to
`\d\d\d\d`, exactly four digits. -/
def pNum4 (cs : List Char) : Option (Nat × List Char) :=
  let ds := cs.take 4
  if ds.length = 4 ∧ ds.all Char.isDigit then some (digitsToNat ds, cs.drop 4)
  else none

/-- Parse exactly `n` digits (the fixed-width pieces of the regexes
`DATE_TIME_RE` and `ISIN_RE`). -/
def pExact (n : Nat) (cs : List Char) : Option (Nat × List Char) :=
  let ds := cs.take n
  if ds.length = n ∧ ds.all Char.isDigit then some (digitsToNat ds, cs.drop n)
  else none

def pLit (c : Char) (cs : List Char) : Option (List Char) :=
  match cs with
  | c' :: rest => if c' = c then some rest else none
  | [] => none

/-- A literal space in a `strptime` format matches one or more whitespace
characters. -/
def pWs1 (cs : List Char) : Option (List Char) :=
  match cs with
  | c :: rest => if pyIsSpace c then some (rest.dropWhile pyIsSpace) else none
  | [] => none

/-- `strptime(s, "%d.%m.%Y %H:%M:%S")` on the whole string. -/
def strptimeDMY_HMS (s : String) : Option DT := do
  let cs := s.data
  let (d, cs) ← pNum2 cs
  let cs ← pLit '.' cs
  let (mo, cs) ← pNum2 cs
  let cs ← pLit '.' cs
  let (y, cs) ← pNum4 cs
  let cs ← pWs1 cs
  let (h, cs) ← pNum2 cs
  let cs ← pLit ':' cs
  let (mi, cs) ← pNum2 cs
  let cs ← pLit ':' cs
  let (se, cs) ← pNum2 cs
  if cs.isEmpty then mkDT? y mo d h mi se else none

/-- `strptime(s, "%d.%m.%Y %H:%M")` on the whole string. -/
def strptimeDMY_HM (s : String) : Option DT := do
  let cs := s.data
  let (d, cs) ← pNum2 cs
  let cs ← pLit '.' cs
  let (mo, cs) ← pNum2 cs
  let cs ← pLit '.' cs
  let (y, cs) ← pNum4 cs
  let cs ← pWs1 cs
  let (h, cs) ← pNum2 cs
  let cs ← pLit ':' cs
  let (mi, cs) ← pNum2 cs
  if cs.isEmpty then mkDT? y mo d h mi 0 else none

/-- `strptime(s, "%d.%m.%Y")` on the whole string. -/
def strptimeDMY (s : String) : Option DT := do
  let cs := s.data
  let (d, cs) ← pNum2 cs
  let cs ← pLit '.' cs
  let (mo, cs) ← pNum2 cs
  let cs ← pLit '.' cs
  let (y, cs) ← pNum4 cs
  if cs.isEmpty then mkDT? y mo d 0 0 0 else none

/-- `strptime(s, "%Y-%m-%d")` on the whole string. -/
def strptimeYMD (s : String) : Option DT := do
  let cs := s.data
  let (y, cs) ← pNum4 cs
  let cs ← pLit '-' cs
  let (mo, cs) ← pNum2 cs
  let cs ← pLit '-' cs
  let (d, cs) ← pNum2 cs
  if cs.isEmpty then mkDT? y mo d 0 0 0 else none

/-- `strptime(s, "%Y-%m-%d %H:%M:%S")` on the whole string. -/
def strptimeYMD_HMS (s : String) : Option DT := do
  let cs := s.data
  let (y, cs) ← pNum4 cs
  let cs ← pLit '-' cs
  let (mo, cs) ← pNum2 cs
  let cs ← pLit '-' cs
  let (d, cs) ← pNum2 cs
  let cs ← pWs1 cs
  let (h, cs) ← pNum2 cs
  let cs ← pLit ':' cs
  let (mi, cs) ← pNum2 cs
  let cs ← pLit ':' cs
  let (se, cs) ← pNum2 cs
  if cs.isEmpty then mkDT? y mo d h mi se else none

/-- `strptime(s, "%Y-%m-%dT%H:%M:%S")` on the whole string. -/
def strptimeYMDT_HMS (s : String) : Option DT := do
  let cs := s.data
  let (y, cs) ← pNum4 cs
  let cs ← pLit '-' cs
  let (mo, cs) ← pNum2 cs
  let cs ← pLit '-' cs
  let (d, cs) ← pNum2 cs
  let cs ← pLit 'T' cs
  let (h, cs) ← pNum2 cs
  let cs ← pLit ':' cs
  let (mi, cs) ← pNum2 cs
  let cs ← pLit ':' cs
  let (se, cs) ← pNum2 cs
  if cs.isEmpty then mkDT? y mo d h mi se else none

end FinProgress

namespace FinProgress

/-! ## Regex searches (`re.search` with leftmost-match semantics) -/

/-- Leftmost-match search: try the matcher at every position, left to right
(this is exactly `re.search`'s strategy for these patterns). -/
def scanFirst {α : Type} (f : List Char → Option α) : List Char → Option α
  | [] => f []
  | c :: rest => (f (c :: rest)).orElse (fun _ => scanFirst f rest)

/-- Match `DATE_TIME_RE` = `\d{2}\.\d{2}\.\d{4}\s+\d{2}:\d{2}:\d{2}` at the
head of the list, returning the numeric fields. -/
def dtFullAt (cs : List Char) : Option (Nat × Nat × Nat × Nat × Nat × Nat) := do
  let (d, cs) ← pExact 2 cs
  let cs ← pLit '.' cs
  let (mo, cs) ← pExact 2 cs
  let cs ← pLit '.' cs
  let (y, cs) ← pExact 4 cs
  let cs ← pWs1 cs
  let (h, cs) ← pExact 2 cs
  let cs ← pLit ':' cs
  let (mi, cs) ← pExact 2 cs
  let cs ← pLit ':' cs
  let (se, _) ← pExact 2 cs
  pure (d, mo, y, h, mi, se)

/-- Match `DATE_TIME_SHORT_RE` = `\d{2}\.\d{2}\.\d{4}\s+\d{2}:\d{2}` at the
head of the list. -/
def dtShortAt (cs : List Char) : Option (Nat × Nat × Nat × Nat × Nat) := do
  let (d, cs) ← pExact 2 cs
  let cs ← pLit '.' cs
  let (mo, cs) ← pExact 2 cs
  let cs ← pLit '.' cs
  let (y, cs) ← pExact 4 cs
  let cs ← pWs1 cs
  let (h, cs) ← pExact 2 cs
  let cs ← pLit ':' cs
  let (mi, _) ← pExact 2 cs
  pure (d, mo, y, h, mi)

/-- Mirrors `parse_datetime_from_text` in src/parsers/xml_trades.py: first
textual `DATE_TIME_RE` match validated by `strptime`, else first
`DATE_TIME_SHORT_RE` match, else three full-string formats on the stripped
input. -/
def parse_datetime_from_text (s : Option String) : Option DT :=
  match s with
  | none => none
  | some s =>
    if s = "" then none
    else
      match (scanFirst dtFullAt s.data).bind
          (fun (d, mo, y, h, mi, se) => mkDT? y mo d h mi se) with
      | some dt => some dt
      | none =>
        match (scanFirst dtShortAt s.data).bind
            (fun (d, mo, y, h, mi) => mkDT? y mo d h mi 0) with
        | some dt => some dt
        | none =>
          ((strptimeDMY_HMS (pyStrip s)).orElse fun _ =>
            (strptimeDMY_HM (pyStrip s)).orElse fun _ =>
              strptimeYMDT_HMS (pyStrip s))

/-- Python `datetime.fromisoformat` on the shapes this code produces and
consumes: `YYYY-MM-DD`, optionally followed by a one-character separator and
`HH`, `HH:MM` or `HH:MM:SS` (all zero-padded; fractions and offsets do not
occur here). -/
def fromisoformat? (s : String) : Option DT := do
  let cs := s.data
  let (y, cs) ← pExact 4 cs
  let cs ← pLit '-' cs
  let (mo, cs) ← pExact 2 cs
  let cs ← pLit '-' cs
  let (d, cs) ← pExact 2 cs
  match cs with
  | [] => mkDT? y mo d 0 0 0
  | _ :: cs => do
    let (h, cs) ← pExact 2 cs
    match cs with
    | [] => mkDT? y mo d h 0 0
    | ':' :: cs => do
      let (mi, cs) ← pExact 2 cs
      match cs with
      | [] => mkDT? y mo d h mi 0
      | ':' :: cs => do
        let (se, cs) ← pExact 2 cs
        if cs.isEmpty then mkDT? y mo d h mi se else none
      | _ => none
    | _ => none

/-- Python `v.split("T")[0]`: the prefix before the first `T` (the whole
string when there is none). -/
def headBeforeT (v : String) : String := String.mk (v.data.takeWhile (fun c => c ≠ 'T'))

/-- Mirrors `_parse_iso_datetime` in src/parsers/xml_fin_ops.py. -/
def _parse_iso_datetime (v : Option String) : Option DT :=
  match v with
  | none => none
  | some v =>
    if v = "" then none
    else
      match fromisoformat? v with
      | some dt => some dt
      | none => strptimeYMD (headBeforeT v)

/-- Mirrors `parse_datetime_from_settlement` in src/parsers/xml_transfers.py:
the main branch combines the settlement date and time; any failure falls back
to parsing the date part alone; a failure there gives `None`. -/
def parse_datetime_from_settlement (sd st : Option String) : Option DT :=
  match sd with
  | none => none
  | some sd =>
    if sd = "" then none
    else
      let fallbackTry : Option DT :=
        if strContains sd "T" then strptimeYMD (headBeforeT sd)
        else strptimeYMD sd
      let mainTry : Option DT :=
        if strContains sd "T" then
          match st with
          | some st' =>
            if st' = "" then fromisoformat? sd
            else
              let timePart := String.mk ((pyStrip st').data.takeWhile (fun c => c ≠ '.'))
              strptimeYMD_HMS (headBeforeT sd ++ " " ++ timePart)
          | none => fromisoformat? sd
        else
          match st with
          | some st' =>
            if st' = "" then strptimeYMD sd
            else strptimeYMD_HMS (sd ++ " " ++ st')
          | none => strptimeYMD sd
      match mainTry with
      | some dt => some dt
      | none => fallbackTry

/-! ## ISIN, ticker and registration-number extraction -/

def isAsciiLetter (c : Char) : Bool := ('A' ≤ c ∧ c ≤ 'Z') ∨ ('a' ≤ c ∧ c ≤ 'z')

def isAsciiAlnum (c : Char) : Bool := isAsciiLetter c ∨ c.isDigit

/-- Match `ISIN_RE` = `[A-Z]{2}[A-Z0-9]{9}\d` (compiled with `IGNORECASE`,
so both letter cases match) at the head of the list. -/
def isinHere : List Char → Bool
  | a :: b :: rest =>
    isAsciiLetter a && isAsciiLetter b &&
    (rest.take 9).length = 9 && (rest.take 9).all isAsciiAlnum &&
    (match rest.drop 9 with
     | d :: _ => d.isDigit
     | [] => false)
  | _ => false

def isinScan : List Char → Option (List Char)
  | [] => none
  | c :: rest =>
    if isinHere (c :: rest) then some ((c :: rest).take 12) else isinScan rest

/-- Mirrors `extract_isin_from_attr` in src/utils.py (the copy in
src/parsers/xml_trades.py is character-identical). -/
def extract_isin_from_attr (s : Option String) : String :=
  match s with
  | none => ""
  | some s =>
    if s = "" then ""
    else
      match isinScan s.data with
      | some m => pyUpper (String.mk m)
      | none => pyStrip s

/-- The regex word class `\w` over the alphabets occurring here (ASCII
alphanumerics, underscore, Cyrillic letters), used for `\b` boundaries. -/
def isWordChar (c : Char) : Bool :=
  isAsciiAlnum c ∨ c = '_' ∨ (0x410 ≤ c.toNat ∧ c.toNat ≤ 0x44F) ∨
    c.toNat = 0x401 ∨ c.toNat = 0x451

def upperLetter (c : Char) : Bool := 'A' ≤ c ∧ c ≤ 'Z'

def upperAlnum (c : Char) : Bool := upperLetter c ∨ c.isDigit

/-- Match `RE_ISIN` = `\b[A-Z]{2}[A-Z0-9]{10}\b` (case-sensitive, used by the
financial-operation extractor) at the head of the list; the leading boundary
is checked by the caller via the previous character. -/
def isinStrictHere : List Char → Bool
  | a :: b :: rest =>
    upperLetter a && upperLetter b &&
    (rest.take 10).length = 10 && (rest.take 10).all upperAlnum &&
    (match rest.drop 10 with
     | d :: _ => !(isWordChar d)
     | [] => true)
  | _ => false

def isinStrictScanAux : Option Char → List Char → Option (List Char)
  | _, [] => none
  | prev, c :: rest =>
    if (match prev with
        | none => true
        | some p => !(isWordChar p)) && isinStrictHere (c :: rest) then
      some ((c :: rest).take 12)
    else isinStrictScanAux (some c) rest

def reIsinSearch (s : String) : Option String :=
  (isinStrictScanAux none s.data).map String.mk

/-- Regex class for `re.fullmatch(r"[A-Za-z0-9\-\.]{1,8}", tok)`. -/
def tickerOk (t : String) : Bool :=
  1 ≤ t.length ∧ t.length ≤ 8 ∧ t.data.all (fun c => isAsciiAlnum c ∨ c = '-' ∨ c = '.')

/-- Mirrors `extract_ticker_from_name` in src/parsers/xml_trades.py.  On a
non-empty all-whitespace name, `split()[0]` raises `IndexError`, which the
row loop does not catch; that fault is made explicit here. -/
def extract_ticker_from_name (name : String) : Except String String :=
  if name = "" then .ok ""
  else
    match pySplitWs (pyStrip name) with
    | [] => .error "IndexError: list index out of range"
    | tok :: _ => .ok (if tickerOk tok then tok else "")

end FinProgress

namespace FinProgress

/-! ## `RE_REG_NUMBER` backtracking matcher

`RE_REG_NUMBER` = `\b[0-9][0-9A-ZА-Я]{0,7}[-\/][0-9A-ZА-Я\-\/]*\d[0-9A-ZА-Я\-\/]*\b`
with `IGNORECASE`.  The alternation-free shape lets the backtracking be made
explicit: the `{0,7}` piece is deterministic (its class excludes `-` and
`/`), and the tail's two starred pieces are tried longest-first exactly as
the regex engine does. -/

/-- Class `[0-9A-ZА-Я]` under `IGNORECASE` (both letter cases; `Ё` is outside
`А-Я`). -/
def regAlnum (c : Char) : Bool :=
  c.isDigit ∨ isAsciiLetter c ∨ (0x410 ≤ c.toNat ∧ c.toNat ≤ 0x44F)

/-- Class `[0-9A-ZА-Я\-\/]` under `IGNORECASE`. -/
def regBody (c : Char) : Bool := regAlnum c ∨ c = '-' ∨ c = '/'

/-- Word/non-word boundary (`\b`) between a consumed character and the next
one (`none` = end of string). -/
def boundaryAfter (prevc : Char) (next : Option Char) : Bool :=
  isWordChar prevc != (match next with
    | some c => isWordChar c
    | none => false)

/-- Try candidate lengths `n, n-1, ..., 0` in order (greedy-first
backtracking). -/
def findDescAux {α : Type} (f : Nat → Option α) : Nat → Option α
  | 0 => f 0
  | Nat.succ k => (f (Nat.succ k)).orElse (fun _ => findDescAux f k)

/-- Match the tail `[0-9A-ZА-Я\-\/]*\d[0-9A-ZА-Я\-\/]*\b` at the head of
`l`, returning the number of characters consumed (greedy, with
backtracking). -/
def regTailMatch (l : List Char) : Option Nat :=
  let run := l.takeWhile regBody
  findDescAux (fun i =>
    match run.get? i with
    | some c =>
      if c.isDigit then
        findDescAux (fun j =>
          let total := i + 1 + j
          let prevc := if j = 0 then run.get? i else run.get? (i + j)
          match prevc with
          | some pc =>
            if boundaryAfter pc (l.get? total) then some total else none
          | none => none) (run.length - i - 1)
      else none
    | none => none) (run.length - 1)

/-- Match the whole `RE_REG_NUMBER` at the head of `cs` (the leading `\b` is
the caller's previous-character check), returning the match length. -/
def regNumHere (cs : List Char) : Option Nat :=
  match cs with
  | c :: rest =>
    if c.isDigit then
      let arun := rest.takeWhile regAlnum
      if arun.length ≤ 7 then
        match rest.drop arun.length with
        | sep :: tail =>
          if sep = '-' ∨ sep = '/' then
            (regTailMatch tail).map (fun n => 1 + arun.length + 1 + n)
          else none
        | [] => none
      else none
    else none
  | [] => none

def regNumScanAux : Option Char → List Char → Option (List Char)
  | _, [] => none
  | prev, c :: rest =>
    if (match prev with
        | none => true
        | some p => !(isWordChar p)) then
      match regNumHere (c :: rest) with
      | some n => some ((c :: rest).take n)
      | none => regNumScanAux (some c) rest
    else regNumScanAux (some c) rest

/-- Mirrors `_extract_reg_number` in src/parsers/xml_fin_ops.py. -/
def _extract_reg_number (comment : String) : String :=
  if comment = "" then ""
  else
    match regNumScanAux none comment.data with
    | some m => String.mk m
    | none => ""

end FinProgress

namespace FinProgress

/-! ## XML document model (`xml.etree.ElementTree`) -/

/-- An XML element: tag (possibly namespace-qualified as `{ns}local`),
attribute list (document order; attribute names are unique within one
element) and child elements. -/
inductive Xml where
  | elem (tag : String) (attrs : List (String × String)) (children : List Xml)

def Xml.tag : Xml → String
  | .elem t _ _ => t

def Xml.attrs : Xml → List (String × String)
  | .elem _ a _ => a

def Xml.children : Xml → List Xml
  | .elem _ _ c => c

/-- Mirrors `_local_name` in src/utils.py (and its copy in
src/parsers/xml_trades.py): strip any `{namespace}` marker. -/
def _local_name (tag : String) : String :=
  if strContains tag "\x7d" then
    String.mk ((tag.data.reverse.takeWhile (fun c => c ≠ '}')).reverse)
  else tag

mutual

/-- `element.iter()`: the element itself followed by all descendants in
document (preorder) order. -/
def preorder : Xml → List Xml
  | .elem t a c => Xml.elem t a c :: preorderList c

def preorderList : List Xml → List Xml
  | [] => []
  | x :: xs => preorder x ++ preorderList xs

end

mutual

/-- The order in which `ET.iterparse(source, events=("end",))` delivers
elements: every element fires its end event after all its descendants
(postorder). -/
def postorder : Xml → List Xml
  | .elem t a c => postorderList c ++ [Xml.elem t a c]

def postorderList : List Xml → List Xml
  | [] => []
  | x :: xs => postorder x ++ postorderList xs

end

/-- `element.attrib.get(name)` (attribute names are unique per element). -/
def attrGet (el : Xml) (name : String) : Option String :=
  (el.attrs.find? (fun p => p.1 = name)).map Prod.snd

/-- Mirrors `_safe_attr` in src/parsers/xml_fin_ops.py. -/
def _safe_attr (el : Option Xml) (name : String) : Option String :=
  match el with
  | none => none
  | some el =>
    match (attrGet el name).orElse (fun _ => attrGet el (pyLower name)) with
    | none => none
    | some v =>
      let v' := pyStrip v
      if v' = "" then none else some v'

/-- Lookup in `_normalize_attrib(elem.attrib)` (src/utils.py): keys
lowercased; when two raw keys collide after lowercasing, the later one wins
(Python dict-comprehension semantics). -/
def nattrGet (el : Xml) (k : String) : Option String :=
  ((el.attrs.filter (fun p => pyLower p.1 = k)).getLast?).map Prod.snd

/-- Mirrors `_collect_elements_by_local_name` in src/parsers/xml_fin_ops.py. -/
def collectByLocal (root : Xml) (l : String) : List Xml :=
  (preorder root).filter (fun el => _local_name el.tag = l)

/-- Mirrors `_find_first_descendant_by_local_name` in
src/parsers/xml_fin_ops.py. -/
def findFirstByLocal (root : Xml) (l : String) : Option Xml :=
  (preorder root).find? (fun el => _local_name el.tag = l)

/-! ## The unified record type -/

/-- Modelled from the spec: `OperationRecord` (§3, the `OperationDTO` field
contract — the class itself lives outside the parser sources).  An immutable
record of thirteen fields; construction is total.  `to_dict` flattens the
record field-by-field, keeping the date a timestamp-or-null (ISO-8601
serialization happens at the transport boundary), so the dictionary stage is
modelled as the identity on this record. -/
structure OperationDTO where
  date : Option DT
  operation_type : String
  payment_sum : Rat
  currency : String
  ticker : String
  isin : String
  reg_number : String
  price : Rat
  quantity : Rat
  aci : Rat
  comment : String
  operation_id : String
  commission : Rat
deriving DecidableEq, Repr

/-! ## Input model

One XML source (path, byte buffer or XML text) feeds all three extractors.
The tree parser (`ET.fromstring`/`ET.parse`) either yields the whole tree or
fails; the streaming parser (`ET.iterparse`) delivers end events for every
element completed before a syntax error, and only then raises.  A source
that is unreadable or malformed before any element completes is `bad`; a
source whose document breaks after some complete elements is
`brokenAfter` (the tree parsers fail on it, the streaming parsers see the
listed elements and then the error). -/
inductive XmlInput where
  | good (root : Xml)
  | bad (err : String)
  | brokenAfter (elems : List Xml) (err : String)

end FinProgress

namespace FinProgress

/-! ## Constants (src/constants.py and the tables in src/parsers/xml_fin_ops.py) -/

/-- `SKIP_OPERATIONS` (a Python set; only membership-by-substring is ever
used, so the iteration order is irrelevant). -/
def SKIP_OPERATIONS : List String :=
  ["Расчеты по сделке",
   "Займы \"овернайт\"",
   "НКД по сделке",
   "Покупка/Продажа",
   "Покупка/Продажа (репо)",
   "Переводы между площадками"]

/-- `OPERATION_TYPE_MAP`, in insertion (= iteration) order. -/
def OPERATION_TYPE_MAP : List (String × String) :=
  [("Дивиденды", "dividend"),
   ("Купоны", "coupon"),
   ("Погашение облигации", "repayment"),
   ("Приход ДС", "deposit"),
   ("Частичное погашение облигации", "amortization"),
   ("Вывод ДС", "withdrawal")]

/-- `TRANSFER_COMMENT_PATTERNS`, in insertion (= iteration) order. -/
def TRANSFER_COMMENT_PATTERNS : List (String × List String) :=
  [("coupon", ["погашение купона", "погашением купона"]),
   ("amortization", ["частичное погашение номинала", "частичном погашении номинала"]),
   ("repayment", ["полное погашение номинала", "полном погашении номинала"]),
   ("deposit", ["из ао \"альфа-банк", "из ао альфа-банк"]),
   ("dividend", ["дивиденд"]),
   ("withdrawal", ["списание по поручению клиента", "возврат средств по дог"]),
   ("other_income", ["выплата по поручению клиента в рамках"]),
   ("_skip_", ["перевод денежных средств"])]

/-- `DYNAMIC_TYPE_HANDLERS`, in insertion (= iteration) order; each handler
takes `(operation_name, payment_sum, comment)`. -/
def DYNAMIC_TYPE_HANDLERS : List (String × (String → Rat → String → String)) :=
  [("НДФЛ", fun _ amount _ => if amount > 0 then "refund" else "withholding"),
   ("Комиссия", fun _ amount _ => if amount > 0 then "commission_refund" else "commission"),
   ("Проценты по займам", fun _ amount _ => if amount ≠ 0 then "other_income" else "other_expense")]

/-! ## Financial-operation extractor (src/parsers/xml_fin_ops.py) -/

/-- Plain dictionary lookup in a raw attribute dict. -/
def attrsGet (a : List (String × String)) (k : String) : Option String :=
  (a.find? (fun p => p.1 = k)).map Prod.snd

/-- Mirrors `_parse_decimal`. -/
def _parse_decimal (v : Option String) : Option Rat :=
  match v with
  | none => none
  | some v => (pyNum? v).orElse (fun _ => pyNum? (pyReplace v "," "."))

/-- Mirrors `_collect_p_code_candidates`: the attribute dicts of all
descendants (and the element itself) whose local name is `p_code`. -/
def _collect_p_code_candidates (el : Option Xml) : List (List (String × String)) :=
  match el with
  | none => []
  | some el =>
    ((preorder el).filter (fun p => _local_name p.tag = "p_code")).map Xml.attrs

/-- Mirrors `_extract_currency_and_amount` (without the debug payload):
first truthy currency wins, first parseable truthy volume wins. -/
def _extract_currency_and_amount (commentElem : Option Xml) : String × Option Rat :=
  (_collect_p_code_candidates commentElem).foldl
    (fun st c =>
      let cur := firstTruthy [attrsGet c "p_code", attrsGet c "currency"]
      let vol := firstTruthy [attrsGet c "volume", attrsGet c "volume1", attrsGet c "amount"]
      let currency' := match cur with
        | some curv => if st.1 = "" then pyStrip curv else st.1
        | none => st.1
      let amount' := match vol with
        | some volv => if st.2.isNone then _parse_decimal (some (pyStrip volv)) else st.2
        | none => st.2
      (currency', amount'))
    ("", none)

/-- Result of `_extract_textbox_values`. -/
structure TextboxVals where
  money_volume : Option String
  all_volume : Option String
  debet_volume : Option String
  acc_code : Option String

/-- Mirrors `_extract_textbox_values`: first non-blank value per textbox kind
over the subtree, in document order. -/
def _extract_textbox_values (commentElem : Option Xml) : TextboxVals :=
  match commentElem with
  | none => ⟨none, none, none, none⟩
  | some el =>
    (preorder el).foldl
      (fun res node =>
        let ln := _local_name node.tag
        if ln = "Textbox83" ∧ res.money_volume.isNone then
          match attrsGet node.attrs "money_volume" with
          | some mv =>
            if mv ≠ "" ∧ pyStrip mv ≠ "" then {res with money_volume := some (pyStrip mv)} else res
          | none => res
        else if ln = "Textbox84" ∧ res.all_volume.isNone then
          match attrsGet node.attrs "all_volume" with
          | some av =>
            if av ≠ "" ∧ pyStrip av ≠ "" then {res with all_volume := some (pyStrip av)} else res
          | none => res
        else if ln = "Textbox93" ∧ res.debet_volume.isNone then
          match attrsGet node.attrs "debet_volume" with
          | some dv =>
            if dv ≠ "" ∧ pyStrip dv ≠ "" then {res with debet_volume := some (pyStrip dv)} else res
          | none => res
        else if ln = "Textbox11" ∧ res.acc_code.isNone then
          match attrsGet node.attrs "acc_code" with
          | some ac =>
            if ac ≠ "" ∧ pyStrip ac ≠ "" then {res with acc_code := some (pyStrip ac)} else res
          | none => res
        else res)
      ⟨none, none, none, none⟩

/-- First comment-pattern group matching the lowercased comment, in table
order (the inner loop returns on the first matching pattern of a group). -/
def findCommentType (commentLower : String) : Option String :=
  (TRANSFER_COMMENT_PATTERNS.find? (fun p =>
    p.2.any (fun pat => strContains commentLower pat))).map Prod.fst

/-- Mirrors `_determine_operation_type`: dynamic sign-dependent handlers
first, then exact then substring lookup in `OPERATION_TYPE_MAP`, then the
comment-pattern groups for transfer-labelled or unlabelled rows, then the
raw label / `"unknown"` fallback. -/
def _determine_operation_type (operTypeVal commentText : String) (paymentSum : Rat) : String :=
  let operLower := pyLower operTypeVal
  let commentLower := pyLower commentText
  match DYNAMIC_TYPE_HANDLERS.find? (fun p => strContains operLower (pyLower p.1)) with
  | some p => p.2 operTypeVal paymentSum commentText
  | none =>
    match attrsGet OPERATION_TYPE_MAP operTypeVal with
    | some t => t
    | none =>
      match OPERATION_TYPE_MAP.find? (fun p => strContains operLower (pyLower p.1)) with
      | some p => p.2
      | none =>
        if strContains operLower "перевод" then
          match findCommentType commentLower with
          | some t => t
          | none => "transfer"
        else
          let stripped := pyStrip operTypeVal
          if stripped = "" then
            match findCommentType commentLower with
            | some t => t
            | none => "unknown"
          else stripped

end FinProgress

namespace FinProgress

/-! ## Financial-operation row processing (`_parse_root`'s inner loop) -/

/-- First `oper_type` descriptor under the row. -/
def finRowOperTypeElem (rn : Xml) : Option Xml := findFirstByLocal rn "oper_type"

/-- The raw operation-type label: `None` (modelled `none`) when the
descriptor exists but carries no usable attribute, the empty string when the
descriptor is absent altogether. -/
def finRowOperTypeVal (rn : Xml) : Option String :=
  match finRowOperTypeElem rn with
  | some el => _safe_attr (some el) "oper_type"
  | none => some ""

/-- Comment node: looked up under the `oper_type` node first, then directly
under the row. -/
def finRowCommentElem (rn : Xml) : Option Xml :=
  match finRowOperTypeElem rn with
  | some ote =>
    match findFirstByLocal ote "comment" with
    | some c => some c
    | none => findFirstByLocal rn "comment"
  | none => findFirstByLocal rn "comment"

def finRowCommentText (rn : Xml) : String :=
  (_safe_attr (finRowCommentElem rn) "comment").getD ""

/-- Amount resolution: explicit `p_code` sub-elements first, else the first
present textbox value (and only that one) parsed as a decimal, else zero. -/
def finRowAmountDec (rn : Xml) : Rat :=
  let ce := finRowCommentElem rn
  let fromPcode := (_extract_currency_and_amount ce).2
  let tb := _extract_textbox_values ce
  let amount :=
    match fromPcode with
    | some a => some a
    | none =>
      match tb.money_volume with
      | some mv => _parse_decimal (some mv)
      | none =>
        match tb.all_volume with
        | some av => _parse_decimal (some av)
        | none =>
          match tb.debet_volume with
          | some dv => _parse_decimal (some dv)
          | none => none
  amount.getD 0

def finRowCurrency (rn : Xml) : String :=
  (_extract_currency_and_amount (finRowCommentElem rn)).1

/-- `label_source`: the stripped operation-type label, or the stripped
comment text when the label is absent or blank. -/
def finRowLabel (rn : Xml) : String :=
  let a := pyStrip ((finRowOperTypeVal rn).getD "")
  if a = "" then pyStrip (finRowCommentText rn) else a

/-- The pre-classification skip rule: a non-blank label matching any
`SKIP_OPERATIONS` entry as a case-insensitive substring, or a blank label
with amount exactly zero. -/
def finRowShouldSkip (rn : Xml) : Bool :=
  let label := finRowLabel rn
  if label ≠ "" then
    SKIP_OPERATIONS.any (fun p => strContains (pyLower label) (pyLower p))
  else finRowAmountDec rn = 0

def finRowIsin (rn : Xml) : String :=
  let ct := finRowCommentText rn
  if ct = "" then "" else (reIsinSearch ct).getD ""

/-- One row of `_parse_root`: `ok none` is a skipped row, `ok (some dto)` an
emitted record, `error` the uncaught `AttributeError` raised when
`_determine_operation_type` receives `None` (a present `oper_type` node with
no usable attribute on a row that passes the skip rule). -/
def finRowStep (sdt : Option DT) (rn : Xml) : Except String (Option OperationDTO) :=
  if finRowShouldSkip rn then .ok none
  else
    match finRowOperTypeVal rn with
    | none => .error "AttributeError: 'NoneType' object has no attribute 'lower'"
    | some otv =>
      if _determine_operation_type otv (finRowCommentText rn) (finRowAmountDec rn) = "_skip_" then
        .ok none
      else
        .ok (some
          { date := sdt.orElse (fun _ => _parse_iso_datetime (_safe_attr (some rn) "last_update"))
            operation_type := _determine_operation_type otv (finRowCommentText rn) (finRowAmountDec rn)
            payment_sum := finRowAmountDec rn
            currency := finRowCurrency rn
            ticker := ""
            isin := finRowIsin rn
            reg_number := _extract_reg_number (finRowCommentText rn)
            price := 0
            quantity := 0
            aci := 0
            comment := finRowCommentText rn
            operation_id := ""
            commission := 0 })

/-- Parse statistics of the financial-operation extractor (the purely
diagnostic amount summaries and example comments of the stats dict are not
modelled; nothing downstream reads them). -/
structure FinStats where
  total_rows : Nat
  parsed : Nat
  skipped : Nat
  error : Option String
deriving DecidableEq, Repr

structure FinAcc where
  ops : List OperationDTO
  total : Nat
  skipped : Nat

/-- The row loop of `_parse_root`: an uncaught row exception aborts the whole
scan, is caught by the function-level handler and reported as an error stats
dict alongside an empty record list. -/
def finLoop : List (Option DT × Xml) → FinAcc → List OperationDTO × FinStats
  | [], acc => (acc.ops, ⟨acc.total, acc.ops.length, acc.skipped, none⟩)
  | (sdt, rn) :: rest, acc =>
    match finRowStep sdt rn with
    | .error e => ([], ⟨acc.total + 1, acc.ops.length, acc.skipped, some e⟩)
    | .ok none => finLoop rest ⟨acc.ops, acc.total + 1, acc.skipped + 1⟩
    | .ok (some dto) => finLoop rest ⟨acc.ops ++ [dto], acc.total + 1, acc.skipped⟩

/-- Report-element selection: the first `Report` whose `Name`/`name`
attribute mentions `BrokerMoneyMove`, else the first `Report`, else the tree
root. -/
def finReportElem (root : Xml) : Xml :=
  let reports := collectByLocal root "Report"
  match reports.find? (fun rep =>
    match firstTruthy [attrGet rep "Name", attrGet rep "name"] with
    | some n => strContains n "BrokerMoneyMove"
    | none => false) with
  | some r => r
  | none => reports.headD root

/-- The `(settlement date, row)` pairs scanned by `_parse_root`, in document
order. -/
def finRows (root : Xml) : List (Option DT × Xml) :=
  (collectByLocal (finReportElem root) "settlement_date").flatMap (fun s =>
    let sdt := _parse_iso_datetime (_safe_attr (some s) "settlement_date")
    let rns := (preorder s).filter (fun el => _local_name el.tag = "rn")
    let rns := if rns.isEmpty then s.children.filter (fun c => _local_name c.tag = "rn") else rns
    rns.map (fun rn => (sdt, rn)))

/-- Mirrors `_parse_root`. -/
def _parse_root (root : Xml) : List OperationDTO × FinStats :=
  finLoop (finRows root) ⟨[], 0, 0⟩

/-- Mirrors `parse_fin_operations_from_xml`: an unreadable or malformed
source (the in-memory tree parser fails on a document broken anywhere) gives
an empty list and an error stats dict. -/
def parse_fin_operations_from_xml : XmlInput → List OperationDTO × FinStats
  | .good root => _parse_root root
  | .bad e => ([], ⟨0, 0, 0, some ("XML read error: " ++ e)⟩)
  | .brokenAfter _ e => ([], ⟨0, 0, 0, some ("XML read error: " ++ e)⟩)

end FinProgress

namespace FinProgress

/-! ## Trade extractor (src/parsers/xml_trades.py) -/

def tradeRowQty (el : Xml) : Int :=
  to_int_safe (firstTruthy
    [nattrGet el "qty", nattrGet el "quantity", nattrGet el "textbox14", nattrGet el "qty "])

/-- Date resolution: first attribute alias that is present, non-blank and
actually parses (a present but unparsable alias falls through to the next). -/
def tradeRowDate (el : Xml) : Option DT :=
  ["db_time", "dbtime", "settlement_time", "save_settlement_date",
   "save_depo_settlement_date"].findSome? (fun k =>
    match nattrGet el k with
    | some v => if v = "" then none else parse_datetime_from_text (some v)
    | none => none)

def tradeRowPrice (el : Xml) : Rat :=
  to_float_safe (firstTruthy [nattrGet el "price", nattrGet el "textbox25", nattrGet el "price "])

def tradeRowTotal (el : Xml) : Rat :=
  to_float_safe (firstTruthy
    [nattrGet el "summ_trade", nattrGet el "summtrade", nattrGet el "summ_trade",
     nattrGet el "summ_trade"])

def tradeRowNkd (el : Xml) : Rat :=
  to_float_safe (firstTruthy
    [nattrGet el "summ_nkd", nattrGet el "summnkd", nattrGet el "summ_nkd"])

def tradeRowCurrency (el : Xml) : String :=
  let c := pyStrip ((firstTruthy
    [nattrGet el "curr_calc", nattrGet el "curr", nattrGet el "textbox14"]).getD "")
  if pyUpper c = "RUR" ∨ pyUpper c = "РУБ" ∨ pyUpper c = "РУБЛЬ" then "RUB" else c

def tradeRowIsin (el : Xml) : String :=
  extract_isin_from_attr (firstTruthy
    [nattrGet el "isin_reg", nattrGet el "isin1", nattrGet el "isin"])

def tradeRowPName (el : Xml) : String :=
  (firstTruthy [nattrGet el "p_name", nattrGet el "pname", nattrGet el "active_name"]).getD ""

/-- The raw trade identifier: `(attrib.get("trade_no") or attrib.get("tradeno")
or attrib.get("trade")) or ""` — kept verbatim, no token splitting. -/
def tradeRowTradeNo (el : Xml) : String :=
  (firstTruthy [nattrGet el "trade_no", nattrGet el "tradeno", nattrGet el "trade"]).getD ""

def tradeRowCommission (el : Xml) : Rat :=
  to_float_safe (firstTruthy
    [nattrGet el "bank_tax", nattrGet el "banktax", nattrGet el "bank_tax"])

def tradeRowComment (el : Xml) : String :=
  (firstTruthy [nattrGet el "place_name", nattrGet el "place"]).getD ""

inductive TradeOutcome where
  | noQty
  | noDate
  | invalid
  | emit (dto : OperationDTO)
deriving DecidableEq, Repr

/-- One `Details` row of the trade scan.  The `error` case is the uncaught
`IndexError` from `extract_ticker_from_name` on a non-empty all-whitespace
instrument name.  Record construction is total under the §3 field contract,
so this step never yields `TradeOutcome.invalid`; the defensive catch's
handling of that outcome lives in `tradeOutcomeStep`. -/
def tradeRowStep (el : Xml) : Except String TradeOutcome :=
  if tradeRowQty el = 0 then .ok .noQty
  else
    match tradeRowDate el with
    | none => .ok .noDate
    | some dateVal =>
      match extract_ticker_from_name (tradeRowPName el) with
      | .error e => .error e
      | .ok ticker =>
        .ok (.emit
          { date := some dateVal
            operation_type := if tradeRowQty el > 0 then "buy" else "sale"
            payment_sum := tradeRowTotal el
            currency := tradeRowCurrency el
            ticker := ticker
            isin := tradeRowIsin el
            reg_number := ""
            price := tradeRowPrice el
            quantity := ((|tradeRowQty el| : Int) : Rat)
            aci := tradeRowNkd el
            comment := tradeRowComment el
            operation_id := tradeRowTradeNo el
            commission := tradeRowCommission el })

structure TradeStats where
  total_rows : Nat
  parsed : Nat
  skipped_no_date : Nat
  skipped_no_qty : Nat
  skipped_invalid : Nat
  total_commission : Rat
  error : Option String
deriving DecidableEq, Repr

def initTradeStats : TradeStats := ⟨0, 0, 0, 0, 0, 0, none⟩

/-- The stats dict Python returns from an exception handler holds only the
`error` key; the zeroed counters model the absent keys (nothing reads them
on the error path). -/
def errOnlyTradeStats (e : String) : TradeStats := ⟨0, 0, 0, 0, 0, 0, some e⟩

/-- The per-outcome update of the trade scan's state: the three skip kinds
each bump their named counter and keep the record list (the `invalid` case
is the defensive catch around record construction, xml_trades.py:184-187:
count `skipped_invalid`, do not abort); an emitted record is appended with
its commission accumulated into the running total. -/
def tradeOutcomeStep (oc : TradeOutcome) (ops : List OperationDTO) (st : TradeStats) :
    List OperationDTO × TradeStats :=
  match oc with
  | .noQty => (ops, {st with skipped_no_qty := st.skipped_no_qty + 1})
  | .noDate => (ops, {st with skipped_no_date := st.skipped_no_date + 1})
  | .invalid => (ops, {st with skipped_invalid := st.skipped_invalid + 1})
  | .emit dto =>
    (ops ++ [dto],
     {st with parsed := st.parsed + 1,
              total_commission := st.total_commission + dto.commission})

/-- The trade scan over end-event elements: non-`Details` elements are
ignored; a row exception aborts the scan, returning the records accumulated
so far with an error-only stats dict; every other outcome updates the state
via `tradeOutcomeStep` and continues. -/
def tradeLoop : List Xml → List OperationDTO → TradeStats → List OperationDTO × TradeStats
  | [], ops, st => (ops, st)
  | el :: rest, ops, st =>
    if pyLower (_local_name el.tag) ≠ "details" then tradeLoop rest ops st
    else
      match tradeRowStep el with
      | .error e => (ops, errOnlyTradeStats e)
      | .ok oc =>
        tradeLoop rest
          (tradeOutcomeStep oc ops {st with total_rows := st.total_rows + 1}).1
          (tradeOutcomeStep oc ops {st with total_rows := st.total_rows + 1}).2

/-- Mirrors `parse_trades_from_xml`: a malformed source aborts with an
error-only stats dict; whatever rows completed before the break are still
returned (the streaming reader already delivered their end events). -/
def parse_trades_from_xml : XmlInput → List OperationDTO × TradeStats
  | .good root => tradeLoop (postorder root) [] initTradeStats
  | .bad e => ([], errOnlyTradeStats e)
  | .brokenAfter els e =>
    let r := tradeLoop els [] initTradeStats
    match r.2.error with
    | some e' => (r.1, errOnlyTradeStats e')
    | none => (r.1, errOnlyTradeStats e)

/-! ## Transfer/conversion extractor (src/parsers/xml_transfers.py) -/

def transferRowOperType (el : Xml) : String :=
  pyStrip ((nattrGet el "oper_type").getD "")

def transferRowComment (el : Xml) : String :=
  pyStrip ((nattrGet el "comment_new").getD "")

def transferRowQty (el : Xml) : Rat :=
  to_float_safe (some (pyOrStr (nattrGet el "qty") "0"))

def transferRowDate (el : Xml) : Option DT :=
  parse_datetime_from_settlement (nattrGet el "settlement_date") (nattrGet el "settlement_time")

inductive TransferOutcome where
  | notConversion
  | noQty
  | noDate
  | emit (dto : OperationDTO)
deriving DecidableEq, Repr

/-- One `Details` row of the transfer scan: both filter conditions are
required (operation type equal to the transfer word case-insensitively, and
the conversion word contained in the alternate comment), then non-zero
quantity, then a parsable settlement date. -/
def transferRowStep (el : Xml) : TransferOutcome :=
  if pyLower (transferRowOperType el) ≠ "перевод" then .notConversion
  else if ¬ (strContains (pyLower (transferRowComment el)) "конвертация" = true) then .notConversion
  else if transferRowQty el = 0 then .noQty
  else
    match transferRowDate el with
    | none => .noDate
    | some dv =>
      .emit
        { date := some dv
          operation_type := if transferRowQty el > 0 then "asset_receive" else "asset_withdrawal"
          payment_sum := 0
          currency := ""
          ticker := ""
          isin := extract_isin_from_attr (some ((nattrGet el "p_name").getD ""))
          reg_number := ""
          price := 0
          quantity := |transferRowQty el|
          aci := 0
          comment := transferRowComment el
          operation_id := ""
          commission := 0 }

structure TransferStats where
  total_rows : Nat
  parsed : Nat
  skipped_not_conversion : Nat
  skipped_no_date : Nat
  skipped_no_qty : Nat
  skipped_invalid : Nat
  error : Option String
deriving DecidableEq, Repr

def initTransferStats : TransferStats := ⟨0, 0, 0, 0, 0, 0, none⟩

def errOnlyTransferStats (e : String) : TransferStats := ⟨0, 0, 0, 0, 0, 0, some e⟩

def transferLoop : List Xml → List OperationDTO → TransferStats →
    List OperationDTO × TransferStats
  | [], ops, st => (ops, st)
  | el :: rest, ops, st =>
    if pyLower (_local_name el.tag) ≠ "details" then transferLoop rest ops st
    else
      let st1 := {st with total_rows := st.total_rows + 1}
      match transferRowStep el with
      | .notConversion =>
        transferLoop rest ops
          {st1 with skipped_not_conversion := st1.skipped_not_conversion + 1}
      | .noQty => transferLoop rest ops {st1 with skipped_no_qty := st1.skipped_no_qty + 1}
      | .noDate => transferLoop rest ops {st1 with skipped_no_date := st1.skipped_no_date + 1}
      | .emit dto => transferLoop rest (ops ++ [dto]) {st1 with parsed := st1.parsed + 1}

/-- Mirrors `parse_transfers_from_xml`. -/
def parse_transfers_from_xml : XmlInput → List OperationDTO × TransferStats
  | .good root => transferLoop (postorder root) [] initTransferStats
  | .bad e => ([], errOnlyTransferStats e)
  | .brokenAfter els e =>
    let r := transferLoop els [] initTransferStats
    (r.1, errOnlyTransferStats e)

end FinProgress

namespace FinProgress

/-! ## Aggregator (src/services/full_statement_xml.py) -/

/-- Stand-in for Python's `repr` of the float `sum_part` inside the composite
key.  Keys are only ever compared for equality, and `repr` is injective on
floats, so any injective rendering of the rational represents it; integral
values use the `"100.0"` shape Python actually prints. -/
def pyFloatRepr (q : Rat) : String :=
  if q.den = 1 then toString q.num ++ ".0"
  else toString q.num ++ "/" ++ toString q.den

/-- Mirrors `_op_key`: `"id:<operation_id>"` for a non-blank identifier,
else the `"auto:"` composite of ISO date, type, sum, ticker and isin
(`payment_sum` is always a number here, so the `float(...)` branch always
succeeds; a `None` date prints as the empty string). -/
def _op_key (op : OperationDTO) : String :=
  let oid := pyStrip op.operation_id
  if oid ≠ "" then "id:" ++ oid
  else
    let datePart :=
      match op.date with
      | some d => d.isoformat
      | none => ""
    "auto:" ++ datePart ++ "|" ++ op.operation_type ++ "|" ++ pyFloatRepr op.payment_sum ++
      "|" ++ op.ticker ++ "|" ++ op.isin

/-- The loop body of `_dedupe_ops`: keep a record iff its key is not in the
seen-set. -/
def dedupeGo (seen : List String) : List OperationDTO → List OperationDTO
  | [] => []
  | o :: rest =>
    if _op_key o ∈ seen then dedupeGo seen rest
    else o :: dedupeGo (_op_key o :: seen) rest

/-- Mirrors `_dedupe_ops`. -/
def _dedupe_ops (ops : List OperationDTO) : List OperationDTO × Nat :=
  let d := dedupeGo [] ops
  (d, d.length)

/-- Mirrors `_sort_key_for_operation` on flattened records.  `to_dict` keeps
the date a timestamp-or-null (see `OperationDTO`), so the key is the record's
datetime — `datetime.min` for a null date — paired with the operation type;
Python compares such tuples exactly as this lexicographic key compares
(datetimes field-lexicographically, strings by code point).  The source's
string-date branch re-parses an ISO serialization back to the same datetime
and therefore yields the same key. -/
def _sort_key_for_operation (op : OperationDTO) : Lex (List Nat × List Char) :=
  let dt :=
    match op.date with
    | some d => d
    | none => DT.min
  toLex (dt.fields, op.operation_type.data)

def opLe (a b : OperationDTO) : Prop :=
  _sort_key_for_operation a ≤ _sort_key_for_operation b

instance : DecidableRel opLe :=
  fun a b => inferInstanceAs (Decidable (_sort_key_for_operation a ≤ _sort_key_for_operation b))

instance : IsTotal OperationDTO opLe := ⟨fun _ _ => le_total _ _⟩

instance : IsTrans OperationDTO opLe := ⟨fun _ _ _ h1 h2 => le_trans h1 h2⟩

/-- `combined_ops.sort(key=_sort_key_for_operation)`: Python's sort is
stable and ascending, and a stable ascending sort by a total preorder is
unique, so the stable `insertionSort` is its embedding.  The sort never
raises on these uniform keys, so the defensive handler around it is
unreachable. -/
def sortOps (ops : List OperationDTO) : List OperationDTO :=
  List.insertionSort opLe ops

/-- The concatenation of the three independently deduplicated record lists,
in the source's merge order: financial, then trades, then transfers. -/
def pipelineCombined (fin trades transfers : List OperationDTO) : List OperationDTO :=
  dedupeGo [] fin ++ dedupeGo [] trades ++ dedupeGo [] transfers

structure FullMeta where
  fin_ops_raw_count : Nat
  trade_ops_raw_count : Nat
  transfer_ops_raw_count : Nat
  total_ops_count : Nat
  fin_ops_stats : FinStats
  trade_ops_stats : TradeStats
  transfer_ops_stats : TransferStats
  after_dedupe_from_fin : Nat
  after_dedupe_from_trade : Nat
  after_dedupe_from_transfer : Nat
deriving DecidableEq, Repr

/-- The `meta` dictionary: on a hard extractor failure it carries only the
error message; otherwise the full diagnostic block. -/
inductive MetaDict where
  | errMeta (err : String)
  | fullMeta (m : FullMeta)
deriving DecidableEq, Repr

def MetaDict.errorField : MetaDict → Option String
  | .errMeta e => some e
  | .fullMeta _ => none

/-- The `{operations, meta}` result shape: both fields are always present by
construction, mirroring the function's only return forms. -/
structure FullResult where
  operations : List OperationDTO
  meta : MetaDict
deriving DecidableEq, Repr

/-- The transfer extractor's output as the aggregator uses it: an error is
downgraded to zero transfers with a `{"parsed": 0, "total_rows": 0}` stats
dict (the zeroed fields model the absent keys). -/
def transfersOrEmpty (input : XmlInput) : List OperationDTO × TransferStats :=
  if (parse_transfers_from_xml input).2.error.isSome then
    ([], ⟨0, 0, 0, 0, 0, 0, none⟩)
  else parse_transfers_from_xml input

/-- Mirrors `parse_full_statement_xml`: a trade or financial extractor error
short-circuits to an empty result with an error meta; a transfer extractor
error degrades to zero transfers; otherwise dedupe each list, concatenate,
sort, and assemble the meta block. -/
def parse_full_statement_xml (input : XmlInput) : FullResult :=
  match (parse_trades_from_xml input).2.error with
  | some e => ⟨[], .errMeta e⟩
  | none =>
    match (parse_fin_operations_from_xml input).2.error with
    | some e => ⟨[], .errMeta e⟩
    | none =>
      ⟨sortOps (pipelineCombined (parse_fin_operations_from_xml input).1
          (parse_trades_from_xml input).1 (transfersOrEmpty input).1),
       .fullMeta
         ⟨(parse_fin_operations_from_xml input).2.total_rows,
          (parse_trades_from_xml input).2.total_rows,
          (transfersOrEmpty input).2.total_rows,
          (sortOps (pipelineCombined (parse_fin_operations_from_xml input).1
            (parse_trades_from_xml input).1 (transfersOrEmpty input).1)).length,
          (parse_fin_operations_from_xml input).2,
          (parse_trades_from_xml input).2,
          (transfersOrEmpty input).2,
          (dedupeGo [] (parse_fin_operations_from_xml input).1).length,
          (dedupeGo [] (parse_trades_from_xml input).1).length,
          (dedupeGo [] (transfersOrEmpty input).1).length⟩⟩

end FinProgress

namespace FinProgress

/-! ## Claim theorems -/

/-- C5: in the financial-operation classifier, a row whose raw operation-type
label contains the substring `"НДФЛ"` case-insensitively is classified before
any static-table lookup by the sign of its amount: amount `100.0` yields
`"refund"`, amount `-50.0` yields `"withholding"` (the `НДФЛ` handler is the
first entry of the dynamic-handler table, which is consulted before
`OPERATION_TYPE_MAP`). -/
theorem ndfl_sign_dependent_classification (operTypeVal commentText : String)
    (h : strContains (pyLower operTypeVal) "ндфл" = true) :
    _determine_operation_type operTypeVal commentText 100 = "refund" ∧
    _determine_operation_type operTypeVal commentText (-50) = "withholding" := by
  have hl : pyLower "НДФЛ" = "ндфл" := by decide
  unfold _determine_operation_type DYNAMIC_TYPE_HANDLERS
  simp only [List.find?_cons, hl, h]
  constructor
  · norm_num
  · norm_num

/-- Witness for C5 at the literal label `"НДФЛ"`. -/
theorem ndfl_sign_dependent_classification_witness :
    _determine_operation_type "НДФЛ" "докомментарий" 100 = "refund" ∧
    _determine_operation_type "НДФЛ" "докомментарий" (-50) = "withholding" :=
  ndfl_sign_dependent_classification "НДФЛ" "докомментарий" (by decide)

end FinProgress

namespace FinProgress

/-- The first whitespace-delimited token of a string (what the spec says the
trade identifier is reduced to; stated here only to compare against the
code's behaviour). -/
def firstWhitespaceToken (s : String) : String := (pySplitWs s).headD ""

/-- C4 (counterexample): a trade detail row whose raw trade-identifier
attribute holds the two space-delimited numbers `"123 456"` emits a record
whose `operation_id` is the whole attribute value, not its first token. -/
theorem trade_identifier_first_token_counterexample :
    tradeRowStep (Xml.elem "Details"
        [("qty", "10"), ("db_time", "01.01.2024 10:00:00"), ("trade_no", "123 456")] []) =
      .ok (.emit
        { date := some ⟨2024, 1, 1, 10, 0, 0⟩, operation_type := "buy", payment_sum := 0,
          currency := "", ticker := "", isin := "", reg_number := "", price := 0,
          quantity := 10, aci := 0, comment := "", operation_id := "123 456",
          commission := 0 }) ∧
    firstWhitespaceToken "123 456" = "123" ∧
    ("123 456" : String) ≠ firstWhitespaceToken "123 456" := by
  refine ⟨by decide, by decide, by decide⟩

/-- C4 (amended): every emitted trade record's `operation_id` is the raw
trade-number attribute value verbatim (first non-blank among the
`trade_no`/`tradeno`/`trade` aliases, else empty) — no whitespace-token
splitting is applied. -/
theorem trade_identifier_verbatim (el : Xml) (dto : OperationDTO)
    (h : tradeRowStep el = .ok (.emit dto)) :
    dto.operation_id = tradeRowTradeNo el := by
  unfold tradeRowStep at h
  split at h
  · simp at h
  · split at h
    · simp at h
    · split at h
      · simp at h
      · simp only [Except.ok.injEq, TradeOutcome.emit.injEq] at h
        rw [← h]

/-- Witness for C4 (amended) at a concrete emitted row. -/
theorem trade_identifier_verbatim_witness :
    ({ date := some ⟨2024, 1, 1, 10, 0, 0⟩, operation_type := "buy", payment_sum := 0,
       currency := "", ticker := "", isin := "", reg_number := "", price := 0,
       quantity := 10, aci := 0, comment := "", operation_id := "123 456",
       commission := 0 } : OperationDTO).operation_id =
      tradeRowTradeNo (Xml.elem "Details"
        [("qty", "10"), ("db_time", "01.01.2024 10:00:00"), ("trade_no", "123 456")] []) :=
  trade_identifier_verbatim _ _ (by decide)

end FinProgress

namespace FinProgress

/-- C8: the transfer extractor emits a record for a detail row only when the
operation-type attribute equals `"Перевод"` case-insensitively and the
alternate comment contains `"конвертация"`; any row failing either condition
is counted `skipped_not_conversion`; quantity zero is skipped; an emitted
record's direction follows the quantity's sign and its quantity is the
absolute value. -/
theorem transfer_conversion_filter (el : Xml) :
    (¬ (pyLower (transferRowOperType el) = "перевод" ∧
        strContains (pyLower (transferRowComment el)) "конвертация" = true) →
      transferRowStep el = .notConversion) ∧
    (transferRowQty el = 0 →
     pyLower (transferRowOperType el) = "перевод" →
     strContains (pyLower (transferRowComment el)) "конвертация" = true →
      transferRowStep el = .noQty) ∧
    (∀ dto, transferRowStep el = .emit dto →
      dto.quantity = |transferRowQty el| ∧
      (0 < transferRowQty el → dto.operation_type = "asset_receive") ∧
      (transferRowQty el < 0 → dto.operation_type = "asset_withdrawal")) ∧
    (pyLower (_local_name el.tag) = "details" → transferRowStep el = .notConversion →
      ∀ rest ops st, transferLoop (el :: rest) ops st =
        transferLoop rest ops
          {st with total_rows := st.total_rows + 1,
                   skipped_not_conversion := st.skipped_not_conversion + 1}) := by
  refine ⟨?_, ?_, ?_, ?_⟩
  · intro hnot
    unfold transferRowStep
    rcases Decidable.em (pyLower (transferRowOperType el) = "перевод") with ho | ho
    · rcases Decidable.em (strContains (pyLower (transferRowComment el)) "конвертация" = true)
        with hc | hc
      · exact absurd ⟨ho, hc⟩ hnot
      · simp [ho, hc]
    · simp [ho]
  · intro hq ho hc
    unfold transferRowStep
    simp [ho, hc, hq]
  · intro dto h
    unfold transferRowStep at h
    split at h
    · simp at h
    · split at h
      · simp at h
      · split at h
        · simp at h
        · split at h
          · simp at h
          · simp only [TransferOutcome.emit.injEq] at h
            rw [← h]
            refine ⟨rfl, ?_, ?_⟩
            · intro hpos
              simp only [gt_iff_lt, hpos, if_pos]
            · intro hneg
              have : ¬ (transferRowQty el > 0) := by
                simp only [gt_iff_lt, not_lt]
                exact le_of_lt hneg
              simp only [gt_iff_lt] at this ⊢
              simp [this]
  · intro hd hstep rest ops st
    conv_lhs => rw [transferLoop]
    simp [hd, hstep]

/-- Witness for C8: the spec's concrete row (`oper_type="Перевод"`,
`comment_new="Конвертация ценных бумаг"`, `qty="5"`) yields quantity 5 and
direction `asset_receive`. -/
theorem transfer_conversion_filter_witness :
    ({ date := some ⟨2025, 10, 13, 4, 8, 24⟩, operation_type := "asset_receive",
       payment_sum := 0, currency := "", ticker := "", isin := "x", reg_number := "",
       price := 0, quantity := 5, aci := 0, comment := "Конвертация ценных бумаг",
       operation_id := "", commission := 0 } : OperationDTO).operation_type =
        "asset_receive" ∧
    ({ date := some ⟨2025, 10, 13, 4, 8, 24⟩, operation_type := "asset_receive",
       payment_sum := 0, currency := "", ticker := "", isin := "x", reg_number := "",
       price := 0, quantity := 5, aci := 0, comment := "Конвертация ценных бумаг",
       operation_id := "", commission := 0 } : OperationDTO).quantity = 5 := by
  have h := ((transfer_conversion_filter (Xml.elem "Details"
    [("oper_type", "Перевод"), ("comment_new", "Конвертация ценных бумаг"), ("qty", "5"),
     ("settlement_date", "2025-10-13T00:00:00"), ("settlement_time", "04:08:24"),
     ("p_name", "x")] [])).2.2.1
    { date := some ⟨2025, 10, 13, 4, 8, 24⟩, operation_type := "asset_receive",
      payment_sum := 0, currency := "", ticker := "", isin := "x", reg_number := "",
      price := 0, quantity := 5, aci := 0, comment := "Конвертация ценных бумаг",
      operation_id := "", commission := 0 } (by decide))
  refine ⟨h.2.1 (by decide), h.1.trans (by decide)⟩

end FinProgress

namespace FinProgress

/-- C10: every record emitted by the financial-operation extractor carries an
empty `operation_id` and zero `quantity`, `price`, `aci` and `commission`;
consequently its deduplication key is always the `"auto:"` composite of
(date, type, sum, ticker, isin), never an identifier key. -/
theorem fin_record_identifier_free (sdt : Option DT) (rn : Xml) (dto : OperationDTO)
    (h : finRowStep sdt rn = .ok (some dto)) :
    dto.operation_id = "" ∧ dto.quantity = 0 ∧ dto.price = 0 ∧ dto.aci = 0 ∧
    dto.commission = 0 ∧
    _op_key dto = "auto:" ++
      (match dto.date with
       | some d => d.isoformat
       | none => "") ++ "|" ++ dto.operation_type ++ "|" ++ pyFloatRepr dto.payment_sum ++
      "|" ++ dto.ticker ++ "|" ++ dto.isin := by
  unfold finRowStep at h
  split at h
  · simp at h
  · split at h
    · simp at h
    · split at h
      · simp at h
      · simp only [Except.ok.injEq, Option.some.injEq] at h
        have hid : dto.operation_id = "" := by rw [← h]
        refine ⟨hid, by rw [← h], by rw [← h], by rw [← h], by rw [← h], ?_⟩
        unfold _op_key
        rw [hid]
        simp [pyStrip]

/-- Witness for C10 at a concrete dividend row. -/
theorem fin_record_identifier_free_witness :
    ({ date := none, operation_type := "dividend", payment_sum := 0, currency := "",
       ticker := "", isin := "", reg_number := "", price := 0, quantity := 0, aci := 0,
       comment := "выплата", operation_id := "", commission := 0 } : OperationDTO).operation_id
      = "" ∧
    _op_key ({ date := none, operation_type := "dividend", payment_sum := 0,
               currency := "", ticker := "", isin := "", reg_number := "", price := 0,
               quantity := 0, aci := 0, comment := "выплата", operation_id := "",
               commission := 0 } : OperationDTO) =
      "auto:|dividend|0.0||" := by
  have h := fin_record_identifier_free none
    (Xml.elem "rn" []
      [Xml.elem "oper_type" [("oper_type", "Дивиденды")]
        [Xml.elem "comment" [("comment", "выплата")] []]])
    { date := none, operation_type := "dividend", payment_sum := 0, currency := "",
      ticker := "", isin := "", reg_number := "", price := 0, quantity := 0, aci := 0,
      comment := "выплата", operation_id := "", commission := 0 } (by decide)
  exact ⟨h.1, h.2.2.2.2.2.trans (by decide)⟩

end FinProgress

namespace FinProgress

/-- C6: a financial row whose label (the operation-type value, or the comment
text when that value is blank) matches an ignore-list entry as a
case-insensitive substring is excluded from the emitted operations — in
particular any row labelled `"Покупка/Продажа"`, regardless of amount — and
the skip counter is incremented; a row with blank label and amount exactly
zero is likewise skipped. -/
theorem fin_skip_rule (sdt : Option DT) (rn : Xml) :
    ((finRowLabel rn ≠ "" ∧
        SKIP_OPERATIONS.any
          (fun p => strContains (pyLower (finRowLabel rn)) (pyLower p)) = true) ∨
     (finRowLabel rn = "" ∧ finRowAmountDec rn = 0) →
      finRowStep sdt rn = .ok none) ∧
    (finRowLabel rn = "Покупка/Продажа" → finRowStep sdt rn = .ok none) ∧
    (∀ rows acc, finRowStep sdt rn = .ok none →
      finLoop ((sdt, rn) :: rows) acc =
        finLoop rows ⟨acc.ops, acc.total + 1, acc.skipped + 1⟩) := by
  have hskip : ((finRowLabel rn ≠ "" ∧
      SKIP_OPERATIONS.any
        (fun p => strContains (pyLower (finRowLabel rn)) (pyLower p)) = true) ∨
      (finRowLabel rn = "" ∧ finRowAmountDec rn = 0)) →
      finRowShouldSkip rn = true := by
    intro h
    unfold finRowShouldSkip
    rcases h with ⟨hne, hany⟩ | ⟨heq, hz⟩
    · simp only [hne, if_pos, ne_eq, not_false_iff]
      simpa using hany
    · simp [heq, hz]
  refine ⟨?_, ?_, ?_⟩
  · intro h
    unfold finRowStep
    rw [hskip h]
    simp
  · intro hlabel
    unfold finRowStep
    rw [hskip (Or.inl ⟨by rw [hlabel]; decide, ?_⟩)]
    · simp
    · rw [hlabel]
      decide
  · intro rows acc h
    conv_lhs => rw [finLoop]
    rw [h]

/-- Witness for C6 at a concrete `Покупка/Продажа` row with non-zero
amount. -/
theorem fin_skip_rule_witness :
    finRowStep none (Xml.elem "rn" []
        [Xml.elem "oper_type" [("oper_type", "Покупка/Продажа")]
          [Xml.elem "comment" [("comment", "позиция")]
            [Xml.elem "p_code" [("p_code", "RUB"), ("volume", "100")] []]]]) = .ok none :=
  (fin_skip_rule none _).2.1 (by decide)

end FinProgress

namespace FinProgress

/-- C1: `parse_full_statement_xml` is a total function into the
`{operations, meta}` record shape (both fields always present by its type);
whenever the meta block carries an error, the operations list is empty, and
every malformed or unreadable input — broken before any element or after
some complete elements — produces exactly that error shape. -/
theorem parse_full_statement_error_shape :
    (∀ input : XmlInput,
      ((parse_full_statement_xml input).meta.errorField.isSome →
        (parse_full_statement_xml input).operations = [])) ∧
    (∀ e, parse_full_statement_xml (.bad e) = ⟨[], .errMeta e⟩) ∧
    (∀ els e, (parse_full_statement_xml (.brokenAfter els e)).operations = [] ∧
      (parse_full_statement_xml (.brokenAfter els e)).meta.errorField.isSome) := by
  have hshape : ∀ input : XmlInput,
      (parse_full_statement_xml input).meta.errorField.isSome →
      (parse_full_statement_xml input).operations = [] := by
    intro input h
    unfold parse_full_statement_xml at h ⊢
    split at h
    · rfl
    · split at h
      · rfl
      · simp [MetaDict.errorField] at h
  refine ⟨hshape, ?_, ?_⟩
  · intro e
    rfl
  · intro els e
    have herr : (parse_trades_from_xml (.brokenAfter els e)).2.error.isSome := by
      unfold parse_trades_from_xml
      rcases h : (tradeLoop els [] initTradeStats).2.error with _ | e'
      · simp [h, errOnlyTradeStats]
      · simp [h, errOnlyTradeStats]
    have hmeta : (parse_full_statement_xml (.brokenAfter els e)).meta.errorField.isSome := by
      unfold parse_full_statement_xml
      rcases h2 : (parse_trades_from_xml (.brokenAfter els e)).2.error with _ | e'
      · rw [h2] at herr
        simp at herr
      · simp [h2, MetaDict.errorField]
    exact ⟨hshape _ hmeta, hmeta⟩

/-- Witness for C1 at a concrete unreadable input. -/
theorem parse_full_statement_error_shape_witness :
    parse_full_statement_xml (.bad "not well-formed (invalid token)") =
      ⟨[], .errMeta "not well-formed (invalid token)"⟩ ∧
    (parse_full_statement_xml (.bad "not well-formed (invalid token)")).operations = [] := by
  refine ⟨parse_full_statement_error_shape.2.1 _, ?_⟩
  exact parse_full_statement_error_shape.1 _ (by decide)

end FinProgress

namespace FinProgress

/-- C3 (counterexample): a document that breaks after one complete trade row
makes the trade extractor return a stats dict with an `error` field together
with a NON-empty record list (the row completed before the malformation is
kept), contradicting "returns an empty list of records". -/
theorem trade_error_nonempty_list_counterexample :
    (parse_trades_from_xml (.brokenAfter
        [Xml.elem "Details" [("qty", "10"), ("db_time", "01.01.2024 10:00:00")] []]
        "no element found: line 3, column 0")).2.error =
      some "no element found: line 3, column 0" ∧
    (parse_trades_from_xml (.brokenAfter
        [Xml.elem "Details" [("qty", "10"), ("db_time", "01.01.2024 10:00:00")] []]
        "no element found: line 3, column 0")).1 ≠ [] := by
  refine ⟨by decide, by decide⟩

/-- C3 (amended): malformed XML stops the trade extractor with an `error`
stats field, and the returned list holds exactly the records emitted from
rows completed before the failure point (empty when none was emitted); a
per-row failure — zero quantity, unparsable date, or a record-construction
error caught by the defensive handler — only increments the corresponding
named skip counter (`skipped_no_qty`, `skipped_no_date`, `skipped_invalid`)
and never aborts the batch. -/
theorem trade_failure_semantics :
    (∀ e, parse_trades_from_xml (.bad e) = ([], errOnlyTradeStats e)) ∧
    (∀ els e, (parse_trades_from_xml (.brokenAfter els e)).2.error.isSome ∧
      (parse_trades_from_xml (.brokenAfter els e)).1 = (tradeLoop els [] initTradeStats).1) ∧
    (∀ el : Xml, pyLower (_local_name el.tag) = "details" → tradeRowQty el = 0 →
      ∀ rest ops st, tradeLoop (el :: rest) ops st =
        tradeLoop rest ops
          {st with total_rows := st.total_rows + 1,
                   skipped_no_qty := st.skipped_no_qty + 1}) ∧
    (∀ el : Xml, pyLower (_local_name el.tag) = "details" → tradeRowQty el ≠ 0 →
      tradeRowDate el = none →
      ∀ rest ops st, tradeLoop (el :: rest) ops st =
        tradeLoop rest ops
          {st with total_rows := st.total_rows + 1,
                   skipped_no_date := st.skipped_no_date + 1}) ∧
    (∀ ops st, tradeOutcomeStep .invalid ops st =
      (ops, {st with skipped_invalid := st.skipped_invalid + 1})) := by
  refine ⟨fun e => rfl, ?_, ?_, ?_, ?_⟩
  · intro els e
    unfold parse_trades_from_xml
    rcases h : (tradeLoop els [] initTradeStats).2.error with _ | e'
    · simp [h, errOnlyTradeStats]
    · simp [h, errOnlyTradeStats]
  · intro el hd hq rest ops st
    conv_lhs => rw [tradeLoop]
    have hstep : tradeRowStep el = .ok .noQty := by
      unfold tradeRowStep
      rw [hq]
      simp
    simp [hd, hstep, tradeOutcomeStep]
  · intro el hd hq hdate rest ops st
    conv_lhs => rw [tradeLoop]
    have hstep : tradeRowStep el = .ok .noDate := by
      unfold tradeRowStep
      rw [if_neg hq, hdate]
    simp [hd, hstep, tradeOutcomeStep]
  · intro ops st
    rfl

/-- Witness for C3 (amended) at a zero-quantity row and an unreadable
source. -/
theorem trade_failure_semantics_witness :
    parse_trades_from_xml (.bad "syntax error") = ([], errOnlyTradeStats "syntax error") ∧
    tradeLoop [Xml.elem "Details" [("qty", "0")] []] [] initTradeStats =
      tradeLoop [] []
        {initTradeStats with total_rows := initTradeStats.total_rows + 1,
                             skipped_no_qty := initTradeStats.skipped_no_qty + 1} ∧
    tradeOutcomeStep .invalid [] initTradeStats =
      ([], {initTradeStats with skipped_invalid := initTradeStats.skipped_invalid + 1}) :=
  ⟨trade_failure_semantics.1 "syntax error",
   (trade_failure_semantics.2.2.1 (Xml.elem "Details" [("qty", "0")] []) (by decide) (by decide))
     [] [] initTradeStats,
   trade_failure_semantics.2.2.2.2 [] initTradeStats⟩

end FinProgress

namespace FinProgress

/-- Number of records in a list sharing a given deduplication key. -/
def countKey (ops : List OperationDTO) (k : String) : Nat :=
  List.countP (fun o => _op_key o == k) ops

theorem countKey_nil (k : String) : countKey [] k = 0 := rfl

theorem dedupeGo_countKey_mem (k : String) :
    ∀ (ops : List OperationDTO) (seen : List String), k ∈ seen →
      countKey (dedupeGo seen ops) k = 0 := by
  intro ops
  induction ops with
  | nil => intro seen _; rfl
  | cons o rest ih =>
    intro seen h
    unfold dedupeGo
    by_cases hmem : _op_key o ∈ seen
    · rw [if_pos hmem]
      exact ih seen h
    · rw [if_neg hmem]
      have hne : ¬ (_op_key o = k) := fun he => hmem (he ▸ h)
      unfold countKey
      rw [List.countP_cons]
      simp only [beq_iff_eq, hne, if_false]
      exact ih (_op_key o :: seen) (List.mem_cons_of_mem _ h)

theorem dedupeGo_countKey_one (k : String) :
    ∀ (ops : List OperationDTO) (seen : List String), k ∉ seen →
      (∃ o ∈ ops, _op_key o = k) → countKey (dedupeGo seen ops) k = 1 := by
  intro ops
  induction ops with
  | nil =>
    intro seen _ hex
    rcases hex with ⟨o, ho, _⟩
    cases ho
  | cons o rest ih =>
    intro seen hk hex
    unfold dedupeGo
    by_cases hmem : _op_key o ∈ seen
    · rw [if_pos hmem]
      refine ih seen hk ?_
      rcases hex with ⟨o', ho', hke⟩
      rcases List.mem_cons.mp ho' with rfl | hin
      · exact absurd (hke ▸ hmem) hk
      · exact ⟨o', hin, hke⟩
    · rw [if_neg hmem]
      by_cases hko : _op_key o = k
      · unfold countKey
        rw [List.countP_cons]
        simp only [beq_iff_eq, hko, if_true]
        have h0 := dedupeGo_countKey_mem k rest (k :: seen) (List.mem_cons_self _ _)
        unfold countKey at h0
        omega
      · unfold countKey
        rw [List.countP_cons]
        simp only [beq_iff_eq, hko, if_false]
        have hk' : k ∉ _op_key o :: seen := by
          intro hc
          rcases List.mem_cons.mp hc with rfl | hc'
          · exact hko rfl
          · exact hk hc'
        have hex' : ∃ o' ∈ rest, _op_key o' = k := by
          rcases hex with ⟨o', ho', hke⟩
          rcases List.mem_cons.mp ho' with rfl | hin
          · exact absurd hke hko
          · exact ⟨o', hin, hke⟩
        have := ih (_op_key o :: seen) hk' hex'
        unfold countKey at this
        omega

theorem dedupeGo_find_first (k : String) :
    ∀ (ops : List OperationDTO) (seen : List String), k ∉ seen →
      (dedupeGo seen ops).find? (fun o => _op_key o == k) =
        ops.find? (fun o => _op_key o == k) := by
  intro ops
  induction ops with
  | nil => intro seen _; rfl
  | cons o rest ih =>
    intro seen hk
    unfold dedupeGo
    by_cases hmem : _op_key o ∈ seen
    · rw [if_pos hmem]
      have hko : ¬ (_op_key o = k) := fun he => hk (he ▸ hmem)
      rw [List.find?_cons]
      have hb : (_op_key o == k) = false := beq_eq_false_iff_ne.mpr hko
      rw [hb]
      exact ih seen hk
    · rw [if_neg hmem]
      by_cases hko : _op_key o = k
      · rw [List.find?_cons, List.find?_cons]
        have hb : (_op_key o == k) = true := beq_iff_eq.mpr hko
        rw [hb]
      · rw [List.find?_cons, List.find?_cons]
        have hb : (_op_key o == k) = false := beq_eq_false_iff_ne.mpr hko
        rw [hb]
        refine ih (_op_key o :: seen) ?_
        intro hc
        rcases List.mem_cons.mp hc with rfl | hc'
        · exact hko rfl
        · exact hk hc'

/-- C2 (counterexample): the identifier key carries no per-extractor
namespace.  `_op_key` (full_statement_xml.py:21) is a function of the record
alone, attaching the one fixed `"id:"` marker whatever the record's origin:
the record the trade extractor emits for `trade_no="42"` and a record of
transfer shape carrying the same identifier receive the identical key
`"id:42"`. -/
theorem dedup_key_no_extractor_namespace_counterexample :
    tradeRowStep (Xml.elem "Details"
        [("qty", "10"), ("db_time", "01.01.2024 10:00:00"), ("trade_no", "42")] []) =
      .ok (.emit
        { date := some ⟨2024, 1, 1, 10, 0, 0⟩, operation_type := "buy", payment_sum := 0,
          currency := "", ticker := "", isin := "", reg_number := "", price := 0,
          quantity := 10, aci := 0, comment := "", operation_id := "42",
          commission := 0 }) ∧
    _op_key ({ date := some ⟨2024, 1, 1, 10, 0, 0⟩, operation_type := "buy",
               payment_sum := 0, currency := "", ticker := "", isin := "",
               reg_number := "", price := 0, quantity := 10, aci := 0, comment := "",
               operation_id := "42", commission := 0 } : OperationDTO) = "id:42" ∧
    _op_key ({ date := some ⟨2024, 1, 1, 0, 0, 0⟩, operation_type := "asset_receive",
               payment_sum := 0, currency := "", ticker := "", isin := "",
               reg_number := "", price := 0, quantity := 5, aci := 0,
               comment := "Конвертация ценных бумаг", operation_id := "42",
               commission := 0 } : OperationDTO) = "id:42" := by
  refine ⟨by decide, by decide, by decide⟩

/-- C2 (amended): the deduplication key is the `operation_id` prefixed with
the single fixed `"id:"` marker whenever that identifier is non-blank (the
marker separates identifier keys from `"auto:"` composite keys and is the
same for every extractor) and otherwise the `"auto:"` composite of
(ISO date, canonical type, payment sum, ticker, isin); deduplication keeps
the first occurrence of each key in source order and leaves exactly one
record per key, and it is applied independently to each extractor's list
before the lists are concatenated — that independent application, not any
key tag, is what keeps records of different extractors from ever being
merged, even with coinciding keys (the survivor counts add up); in
particular two rows of one list sharing a non-empty `operation_id` leave
exactly one survivor. -/
theorem dedup_key_spec :
    (∀ op : OperationDTO, pyStrip op.operation_id ≠ "" →
      _op_key op = "id:" ++ pyStrip op.operation_id) ∧
    (∀ op : OperationDTO, pyStrip op.operation_id = "" →
      _op_key op = "auto:" ++
        (match op.date with
         | some d => d.isoformat
         | none => "") ++ "|" ++ op.operation_type ++ "|" ++ pyFloatRepr op.payment_sum ++
        "|" ++ op.ticker ++ "|" ++ op.isin) ∧
    (∀ (ops : List OperationDTO) (k : String), (∃ o ∈ ops, _op_key o = k) →
      countKey (dedupeGo [] ops) k = 1) ∧
    (∀ (ops : List OperationDTO) (k : String),
      (dedupeGo [] ops).find? (fun o => _op_key o == k) =
        ops.find? (fun o => _op_key o == k)) ∧
    (∀ fin trades transfers : List OperationDTO,
      pipelineCombined fin trades transfers =
        dedupeGo [] fin ++ dedupeGo [] trades ++ dedupeGo [] transfers ∧
      (pipelineCombined fin trades transfers).length =
        (dedupeGo [] fin).length + (dedupeGo [] trades).length +
          (dedupeGo [] transfers).length) ∧
    (∀ (ops : List OperationDTO) (o1 o2 : OperationDTO), o1 ∈ ops → o2 ∈ ops →
      o1.operation_id = o2.operation_id → pyStrip o1.operation_id ≠ "" →
      countKey (dedupeGo [] ops) (_op_key o1) = 1) := by
  refine ⟨?_, ?_, ?_, ?_, ?_, ?_⟩
  · intro op h
    unfold _op_key
    rw [if_pos h]
  · intro op h
    unfold _op_key
    rw [h]
    simp
  · intro ops k hex
    exact dedupeGo_countKey_one k ops [] (List.not_mem_nil k) hex
  · intro ops k
    exact dedupeGo_find_first k ops [] (List.not_mem_nil k)
  · intro fin trades transfers
    refine ⟨rfl, ?_⟩
    unfold pipelineCombined
    rw [List.length_append, List.length_append]
  · intro ops o1 o2 h1 _ _ _
    exact dedupeGo_countKey_one (_op_key o1) ops [] (List.not_mem_nil _) ⟨o1, h1, rfl⟩

/-- Witness for C2: two trade-shaped records with the same non-empty
identifier `"42"` leave exactly one survivor, and their shared key is
`"id:42"`. -/
theorem dedup_key_spec_witness :
    _op_key { date := none, operation_type := "buy", payment_sum := 1, currency := "",
              ticker := "", isin := "", reg_number := "", price := 0, quantity := 1,
              aci := 0, comment := "", operation_id := "42", commission := 0 } =
      "id:" ++ pyStrip "42" ∧
    countKey (dedupeGo []
      [{ date := none, operation_type := "buy", payment_sum := 1, currency := "",
         ticker := "", isin := "", reg_number := "", price := 0, quantity := 1,
         aci := 0, comment := "", operation_id := "42", commission := 0 },
       { date := none, operation_type := "sale", payment_sum := 2, currency := "",
         ticker := "", isin := "", reg_number := "", price := 0, quantity := 2,
         aci := 0, comment := "", operation_id := "42", commission := 0 }])
      (_op_key { date := none, operation_type := "buy", payment_sum := 1, currency := "",
                 ticker := "", isin := "", reg_number := "", price := 0, quantity := 1,
                 aci := 0, comment := "", operation_id := "42", commission := 0 }) = 1 := by
  constructor
  · exact dedup_key_spec.1 _ (by decide)
  · exact dedup_key_spec.2.2.2.2.2 _ _
      { date := none, operation_type := "sale", payment_sum := 2, currency := "",
        ticker := "", isin := "", reg_number := "", price := 0, quantity := 2,
        aci := 0, comment := "", operation_id := "42", commission := 0 }
      (by simp) (by simp) (by decide) (by decide)

end FinProgress

namespace FinProgress

/-- C7 (counterexample): a record with a missing date receives the
minimum-datetime sentinel and therefore does NOT sort before every dated
record — a record genuinely dated 0001-01-01T00:00:00 shares the sentinel
key and wins the type tie-break here, ending up before the undated one. -/
theorem sort_min_sentinel_counterexample :
    sortOps
      [{ date := none, operation_type := "withdrawal", payment_sum := 0, currency := "",
         ticker := "", isin := "", reg_number := "", price := 0, quantity := 0, aci := 0,
         comment := "", operation_id := "", commission := 0 },
       { date := some ⟨1, 1, 1, 0, 0, 0⟩, operation_type := "deposit", payment_sum := 0,
         currency := "", ticker := "", isin := "", reg_number := "", price := 0,
         quantity := 0, aci := 0, comment := "", operation_id := "", commission := 0 }] =
      [{ date := some ⟨1, 1, 1, 0, 0, 0⟩, operation_type := "deposit", payment_sum := 0,
         currency := "", ticker := "", isin := "", reg_number := "", price := 0,
         quantity := 0, aci := 0, comment := "", operation_id := "", commission := 0 },
       { date := none, operation_type := "withdrawal", payment_sum := 0, currency := "",
         ticker := "", isin := "", reg_number := "", price := 0, quantity := 0, aci := 0,
         comment := "", operation_id := "", commission := 0 }] ∧
    ({ date := some ⟨1, 1, 1, 0, 0, 0⟩, operation_type := "deposit", payment_sum := 0,
       currency := "", ticker := "", isin := "", reg_number := "", price := 0,
       quantity := 0, aci := 0, comment := "", operation_id := "", commission := 0 }
      : OperationDTO).date.isSome := by
  refine ⟨by decide, by decide⟩

/-- C7 (amended): the merged list is sorted ascending by the pair (resolved
date, operation type as a string tie-break); a record with a missing or
unparsable date is keyed with the minimum-datetime sentinel, so it sorts
before every record with a strictly later date (a record dated exactly at
the sentinel ties and is ordered by the type tie-break); two records dated
2024-01-01 typed `"dividend"` and `"coupon"` come out with `"coupon"`
first. -/
theorem merged_sort_spec :
    (∀ op : OperationDTO, op.date = none →
      _sort_key_for_operation op = toLex (DT.min.fields, op.operation_type.data)) ∧
    (∀ (op : OperationDTO) (d : DT), op.date = some d →
      _sort_key_for_operation op = toLex (d.fields, op.operation_type.data)) ∧
    (∀ ops : List OperationDTO,
      List.Sorted opLe (sortOps ops) ∧ (sortOps ops).Perm ops) ∧
    (sortOps
      [{ date := some ⟨2024, 1, 1, 0, 0, 0⟩, operation_type := "dividend", payment_sum := 0,
         currency := "", ticker := "", isin := "", reg_number := "", price := 0,
         quantity := 0, aci := 0, comment := "", operation_id := "", commission := 0 },
       { date := some ⟨2024, 1, 1, 0, 0, 0⟩, operation_type := "coupon", payment_sum := 0,
         currency := "", ticker := "", isin := "", reg_number := "", price := 0,
         quantity := 0, aci := 0, comment := "", operation_id := "", commission := 0 }] =
      [{ date := some ⟨2024, 1, 1, 0, 0, 0⟩, operation_type := "coupon", payment_sum := 0,
         currency := "", ticker := "", isin := "", reg_number := "", price := 0,
         quantity := 0, aci := 0, comment := "", operation_id := "", commission := 0 },
       { date := some ⟨2024, 1, 1, 0, 0, 0⟩, operation_type := "dividend", payment_sum := 0,
         currency := "", ticker := "", isin := "", reg_number := "", price := 0,
         quantity := 0, aci := 0, comment := "", operation_id := "", commission := 0 }]) := by
  refine ⟨?_, ?_, ?_, by decide⟩
  · intro op h
    unfold _sort_key_for_operation
    rw [h]
  · intro op d h
    unfold _sort_key_for_operation
    rw [h]
  · intro ops
    exact ⟨List.sorted_insertionSort opLe ops, List.perm_insertionSort opLe ops⟩

/-- Witness for C7 (amended) at a concrete undated record and a concrete
two-record sort. -/
theorem merged_sort_spec_witness :
    _sort_key_for_operation
      { date := none, operation_type := "withdrawal", payment_sum := 0, currency := "",
        ticker := "", isin := "", reg_number := "", price := 0, quantity := 0, aci := 0,
        comment := "", operation_id := "", commission := 0 } =
      toLex (DT.min.fields, ("withdrawal" : String).data) ∧
    List.Sorted opLe (sortOps
      [{ date := none, operation_type := "withdrawal", payment_sum := 0, currency := "",
         ticker := "", isin := "", reg_number := "", price := 0, quantity := 0, aci := 0,
         comment := "", operation_id := "", commission := 0 }]) :=
  ⟨merged_sort_spec.1 _ rfl, (merged_sort_spec.2.2.1 _).1⟩

end FinProgress

namespace FinProgress

theorem isinScan_none_of_no_match :
    ∀ cs : List Char, (∀ i, isinHere (cs.drop i) = false) → isinScan cs = none := by
  intro cs
  induction cs with
  | nil => intro _; rfl
  | cons c rest ih =>
    intro h
    have h0 := h 0
    rw [List.drop_zero] at h0
    unfold isinScan
    rw [h0]
    simp only [Bool.false_eq_true, if_false]
    exact ih (fun i => by
      have hi := h (i + 1)
      rwa [List.drop_succ_cons] at hi)

theorem isinScan_some_of_first_match :
    ∀ (cs : List Char) (i : Nat), isinHere (cs.drop i) = true →
      (∀ j, j < i → isinHere (cs.drop j) = false) →
      isinScan cs = some ((cs.drop i).take 12) := by
  intro cs
  induction cs with
  | nil =>
    intro i h _
    rw [List.drop_nil] at h
    simp [isinHere] at h
  | cons c rest ih =>
    intro i h hmin
    cases i with
    | zero =>
      rw [List.drop_zero] at h
      unfold isinScan
      rw [h]
      simp only [if_true, List.drop_zero]
    | succ k =>
      have h0 : isinHere ((c :: rest).drop 0) = false := hmin 0 (Nat.succ_pos k)
      rw [List.drop_zero] at h0
      unfold isinScan
      rw [h0]
      simp only [Bool.false_eq_true, if_false]
      rw [List.drop_succ_cons] at h
      rw [List.drop_succ_cons]
      exact ih k h (fun j hj => by
        have hmj := hmin (j + 1) (Nat.succ_lt_succ hj)
        rwa [List.drop_succ_cons] at hmj)

/-- C9: the ISIN normalizer returns the empty string on a missing or empty
input; when the case-insensitive 12-character pattern (two letters, nine
alphanumerics, one trailing digit) matches somewhere, it returns the
uppercased leftmost match; otherwise it returns the trimmed original string
verbatim. -/
theorem isin_normalizer_spec :
    (extract_isin_from_attr none = "" ∧ extract_isin_from_attr (some "") = "") ∧
    (∀ s : String, (∀ i, isinHere (s.data.drop i) = false) →
      extract_isin_from_attr (some s) = pyStrip s) ∧
    (∀ (s : String) (i : Nat), isinHere (s.data.drop i) = true →
      (∀ j, j < i → isinHere (s.data.drop j) = false) →
      extract_isin_from_attr (some s) = pyUpper (String.mk ((s.data.drop i).take 12))) := by
  refine ⟨⟨rfl, rfl⟩, ?_, ?_⟩
  · intro s h
    unfold extract_isin_from_attr
    dsimp only
    by_cases hs : s = ""
    · rw [if_pos hs, hs]
      rfl
    · rw [if_neg hs, isinScan_none_of_no_match s.data h]
  · intro s i h hmin
    unfold extract_isin_from_attr
    dsimp only
    by_cases hs : s = ""
    · subst hs
      rw [List.drop_nil] at h
      simp [isinHere] at h
    · rw [if_neg hs, isinScan_some_of_first_match s.data i h hmin]

/-- Witness for C9: a lowercase ISIN embedded at position 6 is found and
uppercased; missing and empty inputs give the empty string. -/
theorem isin_normalizer_spec_witness :
    extract_isin_from_attr (some "исин: ru000a0jx0j2") = "RU000A0JX0J2" ∧
    extract_isin_from_attr none = "" := by
  constructor
  · have h := isin_normalizer_spec.2.2 "исин: ru000a0jx0j2" 6 (by decide)
      (fun j hj => by
        interval_cases j <;> decide)
    exact h.trans (by decide)
  · exact isin_normalizer_spec.1.1

end FinProgress
